import Mathlib

/-!
Shallow embedding of the fire-and-crafting core of the `ember` repository
(src/math.rs, src/entity/item.rs, src/entity/asset.rs, src/entity/fire.rs,
src/entity/craft.rs, src/entity/error.rs).

Rust `f64` values are modelled as `ℚ`: every constant appearing in the code
is a decimal literal, and all the arithmetic the claims are about is exact
rational arithmetic (division by zero, which in `f64` would produce an
infinity or NaN, yields `0` in `ℚ`; no claim depends on that corner).

The Batteries rational operations are `@[irreducible]`, which blocks
`decide` on concrete states; we restore default reducibility so concrete
fire states can be evaluated by the kernel.
-/

set_option allowUnsafeReducibility true

attribute [semireducible] Rat.add Rat.sub Rat.mul Rat.div Rat.inv Rat.neg Rat.ofScientific

deriving instance DecidableEq for Except

namespace Ember

/-- src/entity/item.rs: `ItemId` — all item identifiers in the game. -/
inductive ItemId where
  | Twig
  | SmallStick
  | MediumStick
  | LargeStick
  | MediumLog
  | LargeLog
  | Leaves
  | SmallBundle
  | MediumBundle
  deriving DecidableEq, Repr

/-- src/entity/item.rs: `FuelItem` — the fuel parameters of a flammable item. -/
structure FuelItem where
  burn_energy : ℚ
  burn_temperature : ℚ
  activation_coefficient : ℚ
  minimum_activation_temperature : ℚ
  deriving DecidableEq, Repr

/-- src/entity/asset.rs: `ItemId::fuel` — the static fuel-parameter table.
`SmallBundle` and `MediumBundle` reuse the `MediumStick` and `LargeStick`
parameters (the source writes `MediumStick.fuel().unwrap()` and
`LargeStick.fuel().unwrap()`; the values are inlined here). Every current
item id has fuel data; the source's `_ => None` arm is unreachable today. -/
def ItemId.fuel : ItemId → Option FuelItem
  | .Twig => some ⟨25, 873.15, 0.5, 533.15⟩
  | .SmallStick => some ⟨300, 873.15, 0.5, 533.15⟩
  | .MediumStick => some ⟨1000, 873.15, 0.5, 533.15⟩
  | .LargeStick => some ⟨2000, 873.15, 0.5, 533.15⟩
  | .MediumLog => some ⟨3500, 873.15, 0.5, 533.15⟩
  | .LargeLog => some ⟨5000, 873.15, 0.5, 533.15⟩
  | .Leaves => some ⟨100, 773.15, 1.5, 673.15⟩
  | .SmallBundle => some ⟨1000, 873.15, 0.5, 533.15⟩
  | .MediumBundle => some ⟨2000, 873.15, 0.5, 533.15⟩

/-- src/entity/fire.rs: `BurnedState`. -/
inductive BurnedState where
  | Fresh
  | Burning
  | Spent
  deriving DecidableEq, Repr

/-- src/entity/error.rs: `BurnItemError`. -/
inductive BurnItemError where
  | NotFlammable (id : ItemId)
  deriving DecidableEq, Repr

/-- src/entity/error.rs: `FireError`. -/
inductive FireError where
  | BurntOut
  deriving DecidableEq, Repr

/-- src/entity/item.rs: `BurningItem` — an item burning (or about to burn) in
a fire. The presentation-only `item: Item` field (name, description, mass) is
not part of the model; no fire or craft behaviour reads it. -/
structure BurningItem where
  fuel : FuelItem
  remaining_energy : ℚ
  activation_progress : Option ℚ
  burned_state : BurnedState
  deriving DecidableEq, Repr

/-- src/entity/item.rs: `BurningItem::new` — a fresh item with full energy. -/
def BurningItem.new (item_type : ItemId) : Except BurnItemError BurningItem :=
  match item_type.fuel with
  | some fuel => .ok ⟨fuel, fuel.burn_energy, some 0, .Fresh⟩
  | none => .error (.NotFlammable item_type)

/-- src/entity/item.rs: `BurningItem::new_already_burning` — an item already
burning with `remaining_percentage` of its burn energy left. -/
def BurningItem.new_already_burning (item_type : ItemId) (remaining_percentage : ℚ) :
    Except BurnItemError BurningItem :=
  match item_type.fuel with
  | some fuel => .ok ⟨fuel, fuel.burn_energy * remaining_percentage, none, .Burning⟩
  | none => .error (.NotFlammable item_type)

/-- src/entity/item.rs: `BurningItem::activation_percentage` —
`activation_progress.unwrap() / (burn_energy * activation_coefficient)`.
The Rust `unwrap()` panics when the progress is absent; that happens only
outside the `Fresh` state, where no caller invokes this. The unreachable
panic branch is modelled as `0`. -/
def BurningItem.activation_percentage (it : BurningItem) : ℚ :=
  (it.activation_progress.getD 0) / (it.fuel.burn_energy * it.fuel.activation_coefficient)

/-- src/entity/fire.rs: the `Fire` struct. -/
structure Fire where
  items : List BurningItem
  temperature : ℚ
  ambient_temperature : ℚ
  tick_resolution : ℚ
  fresh_fuel_radiates : Bool
  weight_of_ambient : ℚ
  temperature_delta : ℚ
  ambient_temperature_delta : ℚ
  energy_remaining_delta : ℚ
  time_alive : ℚ
  deriving DecidableEq, Repr

/-- src/entity/fire.rs: `Fire::init` — the game-start fire: three medium-stick
embers at 80% energy, already burning. The source unwraps
`new_already_burning`; the error arm models the unreachable panic. -/
def Fire.init : Fire :=
  { items :=
      match BurningItem.new_already_burning .MediumStick 0.8 with
      | .ok ember => [ember, ember, ember]
      | .error _ => []
    temperature := 873.15
    ambient_temperature := 295.15
    tick_resolution := 1.0
    fresh_fuel_radiates := false
    weight_of_ambient := 3000.0
    temperature_delta := 0.0
    ambient_temperature_delta := 0.0
    energy_remaining_delta := 0.0
    time_alive := 0.0 }

/-- src/entity/fire.rs: `Fire::add_item` — append a fresh item; fails without
mutating if the item is not flammable. -/
def Fire.add_item (f : Fire) (item_type : ItemId) : Except BurnItemError Fire :=
  match BurningItem.new item_type with
  | .ok b => .ok { f with items := f.items ++ [b] }
  | .error e => .error e

/-- src/entity/fire.rs: `Fire::energy_remaining` — total energy over all items. -/
def Fire.energy_remaining (f : Fire) : ℚ :=
  f.items.foldl (fun acc it => acc + it.remaining_energy) 0

/-- src/entity/fire.rs: `Fire::is_alive` — true iff any item is burning. -/
def Fire.is_alive (f : Fire) : Bool :=
  f.items.any (fun it => it.burned_state = .Burning)

/-- src/entity/fire.rs: `Fire::has_fresh_items`. -/
def Fire.has_fresh_items (f : Fire) : Bool :=
  f.items.any (fun it => it.burned_state = .Fresh)

/-- src/math.rs: the `weighting_factor_sum` accumulator of `weighted_mean` —
the sum of the weights, accumulated left to right as the source's loop does. -/
def weightSum (data : List (ℚ × ℚ)) : ℚ :=
  data.foldl (fun acc p => acc + p.2) 0

/-- src/math.rs: `weighted_mean` — Σ(value·weight) / Σ(weight), accumulated
left to right exactly as the source's loop does. -/
def weighted_mean (data : List (ℚ × ℚ)) : ℚ :=
  (data.foldl (fun acc p => acc + p.1 * p.2) 0) / weightSum data

/-- src/entity/fire.rs: the weighted data list built inside
`Fire::target_temperature`: the ambient entry first, then one entry per item
in order, weighted by remaining energy. -/
def Fire.targetData (f : Fire) : List (ℚ × ℚ) :=
  (f.ambient_temperature, f.weight_of_ambient) ::
    f.items.map (fun it =>
      (if it.burned_state = .Burning then
        it.fuel.burn_temperature
      else if f.fresh_fuel_radiates ∧ it.burned_state = .Fresh ∧
          f.temperature ≥ it.fuel.minimum_activation_temperature then
        f.ambient_temperature +
          (it.fuel.burn_temperature - f.ambient_temperature) * it.activation_percentage
      else
        f.ambient_temperature, it.remaining_energy))

/-- src/entity/fire.rs: `Fire::target_temperature`. -/
def Fire.target_temperature (f : Fire) : ℚ :=
  weighted_mean f.targetData

/-- src/entity/fire.rs: `Fire::tick_temperature` — move the temperature toward
the target by the 1/50 relaxation step, or snap to ambient when no items
remain. -/
def Fire.tick_temperature (f : Fire) : Fire :=
  if f.items ≠ [] then
    { f with temperature :=
        f.temperature + (f.target_temperature - f.temperature) / 50 * f.tick_resolution }
  else
    { f with temperature := f.ambient_temperature }

/-- src/entity/fire.rs: `Fire::heat_item_tick` — tick a fresh item. Rust
updates the progress through `activation_progress_mut().as_mut().unwrap()`;
in a Rust compound assignment the right-hand side (which reads the pre-update
progress through `activation_percentage()`) is evaluated first. The `none`
arm models the unreachable unwrap panic (the function is only called on
`Fresh` items, whose progress is present by invariant). -/
def Fire.heat_item_tick (f : Fire) (it : BurningItem) : BurningItem :=
  let it1 :=
    match it.activation_progress with
    | some p =>
      if f.temperature ≥ it.fuel.minimum_activation_temperature then
        { it with
            activation_progress := some (p + f.temperature * 0.005 * f.tick_resolution) }
      else
        { it with
            activation_progress := some (p -
              (it.fuel.burn_temperature - f.ambient_temperature) *
                it.activation_percentage * 0.03 * f.tick_resolution) }
    | none => it
  if it1.activation_progress.getD 0 ≥
      it1.fuel.burn_energy * it1.fuel.activation_coefficient ∧
      f.temperature ≥ it1.fuel.minimum_activation_temperature then
    { it1 with activation_progress := none, burned_state := .Burning }
  else
    it1

/-- src/entity/fire.rs: `Fire::burn_item_tick` — tick a burning item: drain
energy, then the energy-exhaustion check (to `Spent`), then the
temperature-regression check (to `Fresh`), in source order; the regression
check runs last and overwrites the state unconditionally. -/
def Fire.burn_item_tick (f : Fire) (it : BurningItem) : BurningItem :=
  let it1 := { it with remaining_energy :=
    it.remaining_energy - f.temperature * 0.001 * f.tick_resolution }
  let it2 :=
    if it1.remaining_energy ≤ 0 then
      { it1 with burned_state := .Spent, remaining_energy := 0 }
    else
      it1
  if f.temperature < it2.fuel.minimum_activation_temperature then
    { it2 with burned_state := .Fresh, activation_progress := some 0 }
  else
    it2

/-- src/entity/fire.rs: `Fire::tick_items` — update every item against the
pre-tick fire scalars (the source iterates over a clone; `heat_item_tick` and
`burn_item_tick` read only the fire's scalar fields, never `items`, so a map
over the original list is exact), then drop the spent items. -/
def Fire.tick_items (f : Fire) : Fire :=
  let updated := f.items.map (fun it =>
    if it.burned_state = .Fresh then f.heat_item_tick it
    else if it.burned_state = .Burning then f.burn_item_tick it
    else it)
  { f with items := updated.filter (fun it => it.burned_state ≠ .Spent) }

/-- src/entity/fire.rs: `Fire::tick` — modelled as the Rust `&mut self`
method: the returned fire is the post-call state, the optional error the
returned `Result`. A dead fire fails with `BurntOut` before any mutation. -/
def Fire.tick (f : Fire) : Option FireError × Fire :=
  if ¬ f.is_alive then
    (some .BurntOut, f)
  else
    let ambient_before := f.ambient_temperature
    let temperature_before := f.temperature
    let energy_before := f.energy_remaining
    let f1 := f.tick_items.tick_temperature
    (none,
      { f1 with
        ambient_temperature_delta := f1.ambient_temperature - ambient_before
        temperature_delta := f1.temperature - temperature_before
        energy_remaining_delta := f1.energy_remaining - energy_before
        time_alive := f1.time_alive + f1.tick_resolution })

/-- src/entity/fire.rs: `Fire::tick_multiple` — tick `count` times, stopping
at (and propagating) the first failure, the fire keeping the mutations of the
successful ticks. -/
def Fire.tick_multiple (f : Fire) : ℕ → Option FireError × Fire
  | 0 => (none, f)
  | n + 1 =>
    match f.tick with
    | (some e, f') => (some e, f')
    | (none, f') => f'.tick_multiple n

/-- src/entity/fire.rs: the `f64::ceil(time / resolution) as u32` conversion
in `Fire::tick_time`: a Rust float-to-u32 cast saturates at 0 below and at
`u32::MAX` above. -/
def ceilToU32 (q : ℚ) : ℕ :=
  min ⌈q⌉.toNat (2 ^ 32 - 1)

/-- src/entity/fire.rs: `Fire::tick_time` — tick `ceil(time / tick_resolution)`
times. -/
def Fire.tick_time (f : Fire) (time : ℚ) : Option FireError × Fire :=
  f.tick_multiple (ceilToU32 (time / f.tick_resolution))

/-- src/entity/craft.rs: `InProgressCraft`. -/
structure InProgressCraft where
  ingredients : List (ItemId × ℕ)
  products : List (ItemId × ℕ)
  recipe_time : ℚ
  time_remaining : ℚ
  deriving DecidableEq, Repr

/-- src/entity/craft.rs: `CraftResult`. -/
inductive CraftResult where
  | Ready (items : List (ItemId × ℕ))
  | Pending (craft : InProgressCraft)
  deriving DecidableEq, Repr

/-- src/entity/craft.rs: `UNCRAFT_MULTIPLIER`. -/
def UNCRAFT_MULTIPLIER : ℚ := 4.0

/-- src/entity/craft.rs: `InProgressCraft::uncraft_time` —
`(recipe_time - time_remaining) / UNCRAFT_MULTIPLIER`. -/
def InProgressCraft.uncraft_time (c : InProgressCraft) : ℚ :=
  (c.recipe_time - c.time_remaining) / UNCRAFT_MULTIPLIER

/-- src/entity/craft.rs: `InProgressCraft::complete` — tick the fire for the
whole remaining time and return the products. -/
def InProgressCraft.complete (c : InProgressCraft) (f : Fire) :
    Except FireError (List (ItemId × ℕ)) × Fire :=
  match f.tick_time c.time_remaining with
  | (some e, f') => (.error e, f')
  | (none, f') => (.ok c.products, f')

/-- src/entity/craft.rs: `InProgressCraft::progress` — poll the craft with a
time budget. -/
def InProgressCraft.progress (c : InProgressCraft) (f : Fire) (max_time : ℚ) :
    Except FireError CraftResult × Fire :=
  if max_time ≥ c.time_remaining then
    match f.tick_time c.time_remaining with
    | (some e, f') => (.error e, f')
    | (none, f') => (.ok (.Ready c.products), f')
  else
    match f.tick_time max_time with
    | (some e, f') => (.error e, f')
    | (none, f') =>
      (.ok (.Pending { c with time_remaining := c.time_remaining - max_time }), f')

/-- src/entity/craft.rs: `InProgressCraft::cancel` — tick the fire for the
uncraft time and return the ingredients. -/
def InProgressCraft.cancel (c : InProgressCraft) (f : Fire) :
    Except FireError (List (ItemId × ℕ)) × Fire :=
  match f.tick_time c.uncraft_time with
  | (some e, f') => (.error e, f')
  | (none, f') => (.ok c.ingredients, f')

/-- src/math.rs: `BoundedFloatError`. -/
inductive BoundedFloatError where
  | TooLow (cur min : ℚ)
  | TooHigh (cur max : ℚ)
  | InvalidBounds (min max : ℚ)
  deriving DecidableEq, Repr

/-- src/math.rs: `BoundedFloat` — a value with configured bounds. -/
structure BoundedFloat where
  current : ℚ
  min : ℚ
  max : ℚ
  deriving DecidableEq, Repr

/-- src/math.rs: `BoundedFloat::new`. -/
def BoundedFloat.new (current min max : ℚ) : Except BoundedFloatError BoundedFloat :=
  if max < min then .error (.InvalidBounds min max)
  else if current < min then .error (.TooLow current min)
  else if current > max then .error (.TooHigh current max)
  else .ok ⟨current, min, max⟩

/-- src/math.rs: `BoundedFloat::new_zero_min`. -/
def BoundedFloat.new_zero_min (current max : ℚ) : Except BoundedFloatError BoundedFloat :=
  BoundedFloat.new current 0 max

/-- src/math.rs: `BoundedFloat::checked_set`. -/
def BoundedFloat.checked_set (b : BoundedFloat) (value : ℚ) :
    Except BoundedFloatError BoundedFloat :=
  if value < b.min then .error (.TooLow value b.min)
  else if value > b.max then .error (.TooHigh value b.max)
  else .ok { b with current := value }

/-- src/math.rs: `BoundedFloat::saturating_set` — clamp through `checked_set`
exactly as the source does; the `InvalidBounds` arm and the inner unwraps
model the source's `unreachable!()`/panic paths by returning `b` unchanged. -/
def BoundedFloat.saturating_set (b : BoundedFloat) (value : ℚ) : BoundedFloat :=
  match b.checked_set value with
  | .ok s => s
  | .error (.TooLow _ _) =>
    match b.checked_set b.min with
    | .ok s => s
    | .error _ => b
  | .error (.TooHigh _ _) =>
    match b.checked_set b.max with
    | .ok s => s
    | .error _ => b
  | .error (.InvalidBounds _ _) => b

/-- src/math.rs: `BoundedFloat::max_diff`. -/
def BoundedFloat.max_diff (b : BoundedFloat) : ℚ :=
  b.max - b.current

/-- src/math.rs: `BoundedFloat::saturating_add`, the body of the
`Add<f64>` operator impl. -/
def BoundedFloat.add (b : BoundedFloat) (value : ℚ) : BoundedFloat :=
  b.saturating_set (b.current + value)

/-- src/math.rs: `BoundedFloat::saturating_sub`, the body of the
`Sub<f64>` operator impl. -/
def BoundedFloat.sub (b : BoundedFloat) (value : ℚ) : BoundedFloat :=
  b.saturating_set (b.current - value)

/-- src/math.rs: `BoundedFloat::saturating_mul`, the body of the
`Mul<f64>` operator impl. -/
def BoundedFloat.mul (b : BoundedFloat) (value : ℚ) : BoundedFloat :=
  b.saturating_set (b.current * value)

/-- src/math.rs: `BoundedFloat::saturating_div`, the body of the
`Div<f64>` operator impl. -/
def BoundedFloat.div (b : BoundedFloat) (value : ℚ) : BoundedFloat :=
  b.saturating_set (b.current / value)

/-- Clamping to an interval, stated as the specification describes
saturation: the lower bound when the raw value is below it, the upper bound
when above it, the raw value otherwise. -/
def clampQ (lo hi x : ℚ) : ℚ :=
  if x < lo then lo else if x > hi then hi else x

/-- The documented `BurningItem` invariant: the state is `Fresh` exactly when
the activation progress is present. -/
def itemInv (it : BurningItem) : Prop :=
  it.burned_state = BurnedState.Fresh ↔ it.activation_progress.isSome = true

/-- The per-item temperature contribution as the specification words it: a
Burning item contributes its fuel's burn temperature; any other item
contributes the ambient temperature, unless `fresh_fuel_radiates` is enabled
and the fire temperature is at or above the item's minimum activation
temperature, in which case it contributes
ambient + (burn_temperature - ambient) * activation_percentage(). -/
def specItemContribution (f : Fire) (it : BurningItem) : ℚ :=
  if it.burned_state = BurnedState.Burning then
    it.fuel.burn_temperature
  else if f.fresh_fuel_radiates ∧ f.temperature ≥ it.fuel.minimum_activation_temperature then
    f.ambient_temperature +
      (it.fuel.burn_temperature - f.ambient_temperature) * it.activation_percentage
  else
    f.ambient_temperature

/-- The scalar temperature update performed by `Fire.tick_temperature` when
the target is the fixed value `T` and the tick resolution is `r`. -/
def relaxStep (T r t : ℚ) : ℚ :=
  t + (T - t) / 50 * r

/-- A fire with no items at all: dead, with nothing burning. -/
def deadFire : Fire :=
  { Fire.init with items := [] }

/-- The ember `Fire.init` seeds the fire with: a medium stick already burning
at 80% energy. -/
def emberStick : BurningItem :=
  ⟨⟨1000, 873.15, 0.5, 533.15⟩, 800, none, .Burning⟩

/-- A freshly added twig, exactly the value `BurningItem::new(Twig)` returns. -/
def freshTwig : BurningItem :=
  ⟨⟨25, 873.15, 0.5, 533.15⟩, 25, some 0, .Fresh⟩

/-- The game-start fire after the 50 time units of the `craft_cancel` test:
same state as `Fire.init` but 50 time units on the clock. (Only `time_alive`
matters to the cancel-timing arithmetic.) -/
def cancelFire : Fire :=
  { Fire.init with time_alive := 50 }

/-- The small-bundle craft of the `craft_cancel` test, half done: recipe time
100, 50 remaining. -/
def halfCraft : InProgressCraft :=
  ⟨[(.SmallStick, 3)], [(.SmallBundle, 1)], 100, 50⟩

/-- The game-start fire with the tick resolution raised to 200 (the public
`with_tick_resolution` setter accepts any value). -/
def overshootFire : Fire :=
  { Fire.init with tick_resolution := 200 }

/-- The game-start fire cooled to 500 K, below the sticks' 533.15 K minimum
activation temperature. -/
def coldFire : Fire :=
  { Fire.init with temperature := 500 }

/-- A burning medium stick almost out of energy (0.4 left). -/
def dyingEmber : BurningItem :=
  ⟨⟨1000, 873.15, 0.5, 533.15⟩, 0.4, none, .Burning⟩

/-- Folding addition of a projection over a list is the starting value plus
the sum of the projections. -/
theorem aux_foldl_add_map {α : Type} (g : α → ℚ) (l : List α) (a : ℚ) :
    l.foldl (fun acc x => acc + g x) a = a + (l.map g).sum := by
  induction l generalizing a with
  | nil => simp
  | cons x xs ih => simp [ih, add_assoc]

/-- C1: ticking a fire fails with `BurntOut` exactly when no item is burning,
and a failed tick returns before mutating anything, leaving the fire's whole
state unchanged. -/
theorem tick_dead_fire_error_iff (f : Fire) :
    ((f.tick).1 = some FireError.BurntOut ↔ f.is_alive = false) ∧
    (f.is_alive = false → (f.tick).2 = f) := by
  by_cases h : f.is_alive
  · simp [Fire.tick, h]
  · simp only [Bool.not_eq_true] at h
    simp [Fire.tick, h]

/-- C1 witness: a fire with no items is not alive, its tick reports
`BurntOut`, and its state is untouched by the failed tick. -/
theorem tick_dead_fire_error_iff_witness :
    (deadFire.tick).1 = some FireError.BurntOut ∧ (deadFire.tick).2 = deadFire :=
  ⟨(tick_dead_fire_error_iff deadFire).1.mpr (by decide),
    (tick_dead_fire_error_iff deadFire).2 (by decide)⟩

/-- C7: `complete` is `progress` with the time budget set to the whole
remaining time: the two leave the fire in the identical state (the one
`tick_time(time_remaining)` produces), `progress` wraps the products that
`complete` returns in `Ready`, and both propagate the identical `BurntOut`
failure; `complete` itself either returns the recipe's products or that
error. -/
theorem complete_eq_progress_time_remaining (c : InProgressCraft) (f : Fire) :
    c.progress f c.time_remaining =
      ((c.complete f).1.map CraftResult.Ready, (c.complete f).2) ∧
    (c.complete f).2 = (f.tick_time c.time_remaining).2 ∧
    ((c.complete f).1 = Except.ok c.products ∨
      (c.complete f).1 = Except.error FireError.BurntOut) := by
  rcases htt : f.tick_time c.time_remaining with ⟨e, f'⟩
  cases e with
  | none =>
    refine ⟨?_, ?_, Or.inl ?_⟩ <;>
      simp [InProgressCraft.progress, InProgressCraft.complete, htt, Except.map]
  | some err =>
    cases err
    refine ⟨?_, ?_, Or.inr ?_⟩ <;>
      simp [InProgressCraft.progress, InProgressCraft.complete, htt, Except.map]

/-- C10: with a positive ambient weight and nonnegative item energies, the
weight sum that `weighted_mean` divides by inside `target_temperature` is at
least `weight_of_ambient`, hence strictly positive: the division is never by
zero. -/
theorem target_temperature_denominator_pos (f : Fire)
    (hw : 0 < f.weight_of_ambient)
    (he : ∀ it ∈ f.items, 0 ≤ it.remaining_energy) :
    f.weight_of_ambient ≤ weightSum f.targetData ∧ 0 < weightSum f.targetData := by
  have hsum : weightSum f.targetData =
      f.weight_of_ambient + (f.items.map (fun it => it.remaining_energy)).sum := by
    unfold weightSum Fire.targetData
    rw [List.foldl_cons, aux_foldl_add_map, List.map_map]
    rw [zero_add]
    rfl
  have hnn : 0 ≤ (f.items.map (fun it => it.remaining_energy)).sum := by
    apply List.sum_nonneg
    intro x hx
    obtain ⟨it, hit, rfl⟩ := List.mem_map.mp hx
    exact he it hit
  constructor
  · rw [hsum]; linarith
  · rw [hsum]; linarith

/-- C10 witness: the game-start fire has positive ambient weight, nonnegative
item energies, and hence a positive weighted-mean denominator. -/
theorem target_temperature_denominator_pos_witness :
    Fire.init.weight_of_ambient ≤ weightSum Fire.init.targetData ∧
    0 < weightSum Fire.init.targetData :=
  target_temperature_denominator_pos Fire.init (by decide) (by decide)

/-- For bounds in the right order, `saturating_set` is exactly clamping: the
source's `checked_set`-error-then-reset dance lands on the clamped value. -/
theorem aux_saturating_set_eq (b : BoundedFloat) (v : ℚ) (hb : b.min ≤ b.max) :
    b.saturating_set v = ⟨clampQ b.min b.max v, b.min, b.max⟩ := by
  obtain ⟨cur, lo, hi⟩ := b
  simp only at hb
  by_cases h1 : v < lo
  · simp [BoundedFloat.saturating_set, BoundedFloat.checked_set, clampQ, h1,
      lt_self_iff_false, not_lt.mpr hb]
  · by_cases h2 : v > hi
    · simp [BoundedFloat.saturating_set, BoundedFloat.checked_set, clampQ, h1, h2,
        lt_self_iff_false, not_lt.mpr hb]
    · simp [BoundedFloat.saturating_set, BoundedFloat.checked_set, clampQ, h1, h2]

/-- C9: starting from a valid bounded value, each of the four arithmetic
operations saturates without error to the exact arithmetic result clamped to
the bounds (which are preserved), and the specification's two concrete
examples come out as stated. -/
theorem boundedFloat_saturating_ops (b : BoundedFloat) (v : ℚ)
    (hmin : b.min ≤ b.current) (hmax : b.current ≤ b.max) :
    b.add v = ⟨clampQ b.min b.max (b.current + v), b.min, b.max⟩ ∧
    b.sub v = ⟨clampQ b.min b.max (b.current - v), b.min, b.max⟩ ∧
    b.mul v = ⟨clampQ b.min b.max (b.current * v), b.min, b.max⟩ ∧
    b.div v = ⟨clampQ b.min b.max (b.current / v), b.min, b.max⟩ ∧
    (BoundedFloat.new_zero_min 0 2).map (fun x => (x.add 5).current) = .ok 2 ∧
    (BoundedFloat.new_zero_min 1 2).map (fun x => (x.sub 5).current) = .ok 0 := by
  have hb : b.min ≤ b.max := hmin.trans hmax
  exact ⟨aux_saturating_set_eq b _ hb, aux_saturating_set_eq b _ hb,
    aux_saturating_set_eq b _ hb, aux_saturating_set_eq b _ hb, by decide, by decide⟩

/-- C9 witness: the concrete bounded value 1 in [0, 2] with operand 5
satisfies the saturation equations. -/
theorem boundedFloat_saturating_ops_witness :
    BoundedFloat.add ⟨1, 0, 2⟩ 5 = ⟨2, 0, 2⟩ ∧ BoundedFloat.sub ⟨1, 0, 2⟩ 5 = ⟨0, 0, 2⟩ := by
  have h := boundedFloat_saturating_ops ⟨1, 0, 2⟩ 5 (by decide) (by decide)
  exact ⟨h.1.trans (by decide), h.2.1.trans (by decide)⟩

/-- A successful `BurningItem::new` satisfies the state/progress invariant. -/
theorem aux_itemInv_new (id : ItemId) (it : BurningItem)
    (h : BurningItem.new id = .ok it) : itemInv it := by
  cases hf : id.fuel with
  | some fuel =>
    simp [BurningItem.new, hf] at h
    simp [itemInv, ← h]
  | none => simp [BurningItem.new, hf] at h

/-- A successful `BurningItem::new_already_burning` satisfies the
state/progress invariant. -/
theorem aux_itemInv_new_already_burning (id : ItemId) (q : ℚ) (it : BurningItem)
    (h : BurningItem.new_already_burning id q = .ok it) : itemInv it := by
  cases hf : id.fuel with
  | some fuel =>
    simp [BurningItem.new_already_burning, hf] at h
    simp [itemInv, ← h]
  | none => simp [BurningItem.new_already_burning, hf] at h

/-- `heat_item_tick` preserves the state/progress invariant on a fresh item. -/
theorem aux_itemInv_heat (f : Fire) (it : BurningItem)
    (hs : it.burned_state = BurnedState.Fresh) (hinv : itemInv it) :
    itemInv (f.heat_item_tick it) := by
  obtain ⟨fu, re, ap, bs⟩ := it
  obtain rfl : bs = BurnedState.Fresh := hs
  obtain ⟨p, rfl⟩ : ∃ p, ap = some p :=
    Option.isSome_iff_exists.mp (hinv.mp rfl)
  simp only [Fire.heat_item_tick]
  split_ifs <;> simp [itemInv]

/-- `burn_item_tick` preserves the state/progress invariant on a burning
item. -/
theorem aux_itemInv_burn (f : Fire) (it : BurningItem)
    (hs : it.burned_state = BurnedState.Burning) (hinv : itemInv it) :
    itemInv (f.burn_item_tick it) := by
  obtain ⟨fu, re, ap, bs⟩ := it
  obtain rfl : bs = BurnedState.Burning := hs
  obtain rfl : ap = (none : Option ℚ) := by
    cases ap with
    | none => rfl
    | some p => exact absurd (hinv.mpr rfl) (fun hcon => BurnedState.noConfusion hcon)
  simp only [Fire.burn_item_tick]
  split_ifs <;> simp [itemInv]

/-- `add_item` preserves the fire-wide state/progress invariant. -/
theorem aux_add_item_inv (f : Fire) (id : ItemId) (f' : Fire)
    (h : f.add_item id = .ok f') (hall : ∀ it ∈ f.items, itemInv it) :
    ∀ it ∈ f'.items, itemInv it := by
  cases hb : BurningItem.new id with
  | ok b =>
    simp [Fire.add_item, hb] at h
    intro it hit
    rw [← h] at hit
    simp only [List.mem_append, List.mem_singleton] at hit
    rcases hit with hit | rfl
    · exact hall it hit
    · exact aux_itemInv_new id it hb
  | error e => simp [Fire.add_item, hb] at h

/-- C6: every creating or updating operation — `new`, `new_already_burning`,
`add_item`, and the per-tick `heat_item_tick` / `burn_item_tick` at their
call-site states — preserves the invariant that an item is `Fresh` exactly
when its activation progress is present. -/
theorem item_state_progress_invariant :
    (∀ (id : ItemId) (it : BurningItem), BurningItem.new id = .ok it → itemInv it) ∧
    (∀ (id : ItemId) (q : ℚ) (it : BurningItem),
      BurningItem.new_already_burning id q = .ok it → itemInv it) ∧
    (∀ (f : Fire) (id : ItemId) (f' : Fire), f.add_item id = .ok f' →
      (∀ it ∈ f.items, itemInv it) → ∀ it ∈ f'.items, itemInv it) ∧
    (∀ (f : Fire) (it : BurningItem), it.burned_state = BurnedState.Fresh →
      itemInv it → itemInv (f.heat_item_tick it)) ∧
    (∀ (f : Fire) (it : BurningItem), it.burned_state = BurnedState.Burning →
      itemInv it → itemInv (f.burn_item_tick it)) :=
  ⟨aux_itemInv_new, aux_itemInv_new_already_burning, aux_add_item_inv,
    aux_itemInv_heat, aux_itemInv_burn⟩

/-- C6 witness: the invariant holds for a new twig, survives one heat tick of
that twig, and survives one burn tick of the initial ember. -/
theorem item_state_progress_invariant_witness :
    itemInv freshTwig ∧ itemInv (Fire.init.heat_item_tick freshTwig) ∧
    itemInv (Fire.init.burn_item_tick emberStick) :=
  ⟨item_state_progress_invariant.1 .Twig freshTwig (by decide),
    item_state_progress_invariant.2.2.2.1 Fire.init freshTwig (by decide)
      (item_state_progress_invariant.1 .Twig freshTwig (by decide)),
    item_state_progress_invariant.2.2.2.2 Fire.init emberStick (by decide)
      (by simp [itemInv, emberStick])⟩

/-- C2: for a fire whose items are all un-spent (the only states the tick
loop ever leaves in the collection), `target_temperature` is the weighted
mean Σ(tempᵢ·weightᵢ)/Σ(weightᵢ) over the ambient entry (weight
`weight_of_ambient`) and one entry per item weighted by its remaining
energy, with the per-item temperature the specification describes. -/
theorem target_temperature_weighted_mean_spec (f : Fire)
    (_hne : f.items ≠ [])
    (hstates : ∀ it ∈ f.items, it.burned_state ≠ BurnedState.Spent) :
    f.target_temperature =
      (f.ambient_temperature * f.weight_of_ambient +
        (f.items.map (fun it => specItemContribution f it * it.remaining_energy)).sum) /
      (f.weight_of_ambient +
        (f.items.map (fun it => it.remaining_energy)).sum) := by
  unfold Fire.target_temperature weighted_mean weightSum Fire.targetData
  rw [List.foldl_cons, List.foldl_cons, aux_foldl_add_map, aux_foldl_add_map,
    List.map_map, List.map_map, zero_add, zero_add]
  congr 1
  congr 1
  apply congrArg List.sum
  apply List.map_congr_left
  intro it hit
  have hns := hstates it hit
  cases hbs : it.burned_state with
  | Fresh => simp [Function.comp, specItemContribution, hbs]
  | Burning => simp [Function.comp, specItemContribution, hbs]
  | Spent => exact absurd hbs hns

/-- C2 witness: the formula instantiated at the game-start fire (nonempty,
all items burning). -/
theorem target_temperature_weighted_mean_spec_witness :
    Fire.init.target_temperature =
      (Fire.init.ambient_temperature * Fire.init.weight_of_ambient +
        (Fire.init.items.map
          (fun it => specItemContribution Fire.init it * it.remaining_energy)).sum) /
      (Fire.init.weight_of_ambient +
        (Fire.init.items.map (fun it => it.remaining_energy)).sum) :=
  target_temperature_weighted_mean_spec Fire.init (by decide) (by decide)

/-- C3: one `heat_item_tick` of a fresh item with progress `p` either raises
the progress by temperature·0.005·resolution (fire at or above the item's
minimum activation temperature) or decays it by
(burn_temperature − ambient)·(p/(burn_energy·activation_coefficient))·0.03·resolution,
and the item then transitions to `Burning` with the progress cleared exactly
when the updated progress reaches burn_energy·activation_coefficient while
the temperature is still at or above the minimum activation temperature. -/
theorem heat_item_tick_spec (f : Fire) (it : BurningItem) (p : ℚ)
    (_hstate : it.burned_state = BurnedState.Fresh)
    (hp : it.activation_progress = some p) :
    f.heat_item_tick it =
      (let p' :=
        if f.temperature ≥ it.fuel.minimum_activation_temperature then
          p + f.temperature * 0.005 * f.tick_resolution
        else
          p - (it.fuel.burn_temperature - f.ambient_temperature) *
            (p / (it.fuel.burn_energy * it.fuel.activation_coefficient)) *
            0.03 * f.tick_resolution
      if p' ≥ it.fuel.burn_energy * it.fuel.activation_coefficient ∧
          f.temperature ≥ it.fuel.minimum_activation_temperature then
        { it with activation_progress := none, burned_state := BurnedState.Burning }
      else
        { it with activation_progress := some p' }) := by
  obtain ⟨fu, re, ap, bs⟩ := it
  obtain rfl : ap = some p := hp
  by_cases hc : f.temperature ≥ fu.minimum_activation_temperature <;>
    simp [Fire.heat_item_tick, BurningItem.activation_percentage, hc]

/-- C3 witness: one heat tick of a fresh twig in the game-start fire (hot
enough) raises its progress from 0 to 873.15·0.005·1 = 4.36575, below the
twig's 12.5 activation threshold, so it stays fresh. -/
theorem heat_item_tick_spec_witness :
    Fire.init.heat_item_tick freshTwig =
      ⟨⟨25, 873.15, 0.5, 533.15⟩, 25, some 4.36575, .Fresh⟩ :=
  (heat_item_tick_spec Fire.init freshTwig 0 (by decide) (by decide)).trans (by decide)

/-- C4: one `burn_item_tick` of a burning item drains
temperature·0.001·resolution of energy; a non-positive result is clamped to
0 with the state set to `Spent`, but when the fire is additionally below the
item's minimum activation temperature the later regression check wins and
the item ends `Fresh` with energy 0 and progress reset to `some 0`. -/
theorem burn_item_tick_spec (f : Fire) (it : BurningItem)
    (_hstate : it.burned_state = BurnedState.Burning) :
    (let e' := it.remaining_energy - f.temperature * 0.001 * f.tick_resolution
     ((f.burn_item_tick it).remaining_energy = if e' ≤ 0 then 0 else e') ∧
     (e' ≤ 0 ∧ f.temperature < it.fuel.minimum_activation_temperature →
       f.burn_item_tick it =
         { it with
             remaining_energy := 0
             activation_progress := some 0
             burned_state := BurnedState.Fresh }) ∧
     (e' ≤ 0 ∧ ¬ f.temperature < it.fuel.minimum_activation_temperature →
       f.burn_item_tick it =
         { it with remaining_energy := 0, burned_state := BurnedState.Spent }) ∧
     (¬ e' ≤ 0 ∧ f.temperature < it.fuel.minimum_activation_temperature →
       f.burn_item_tick it =
         { it with
             remaining_energy := e'
             activation_progress := some 0
             burned_state := BurnedState.Fresh }) ∧
     (¬ e' ≤ 0 ∧ ¬ f.temperature < it.fuel.minimum_activation_temperature →
       f.burn_item_tick it = { it with remaining_energy := e' })) := by
  obtain ⟨fu, re, ap, bs⟩ := it
  by_cases h1 : re - f.temperature * 0.001 * f.tick_resolution ≤ 0 <;>
  by_cases h2 : f.temperature < fu.minimum_activation_temperature <;>
    simp [Fire.burn_item_tick, h1, h2]

/-- C4 witness: in the cooled fire (500 K, below the 533.15 K minimum), a
burning stick with 0.4 energy drops to −0.1 ≤ 0, and the regression check
wins over `Spent`: it ends `Fresh` with energy 0 and progress `some 0`. -/
theorem burn_item_tick_spec_witness :
    coldFire.burn_item_tick dyingEmber =
      { dyingEmber with
          remaining_energy := 0
          activation_progress := some 0
          burned_state := BurnedState.Fresh } :=
  (burn_item_tick_spec coldFire dyingEmber (by decide)).2.1 ⟨by decide, by decide⟩

/-- `tick_items` never touches the clock. -/
theorem aux_tick_items_time (f : Fire) : (f.tick_items).time_alive = f.time_alive := rfl

/-- `tick_items` never touches the tick resolution. -/
theorem aux_tick_items_res (f : Fire) : (f.tick_items).tick_resolution = f.tick_resolution :=
  rfl

/-- `tick_temperature` never touches the clock. -/
theorem aux_tick_temperature_time (f : Fire) :
    (f.tick_temperature).time_alive = f.time_alive := by
  unfold Fire.tick_temperature
  split <;> rfl

/-- `tick_temperature` never touches the tick resolution. -/
theorem aux_tick_temperature_res (f : Fire) :
    (f.tick_temperature).tick_resolution = f.tick_resolution := by
  unfold Fire.tick_temperature
  split <;> rfl

/-- A successful tick advances the clock by exactly one tick resolution and
keeps the resolution itself. -/
theorem aux_tick_ok (f f' : Fire) (h : f.tick = (none, f')) :
    f'.time_alive = f.time_alive + f.tick_resolution ∧
    f'.tick_resolution = f.tick_resolution := by
  by_cases ha : f.is_alive
  · simp [Fire.tick, ha] at h
    refine ⟨?_, ?_⟩ <;>
      simp [← h, aux_tick_temperature_time, aux_tick_items_time,
        aux_tick_temperature_res, aux_tick_items_res]
  · simp [Fire.tick, ha] at h

/-- `n` successful ticks advance the clock by exactly `n` tick resolutions. -/
theorem aux_tick_multiple_ok (n : ℕ) : ∀ (f f' : Fire),
    f.tick_multiple n = (none, f') →
    f'.time_alive = f.time_alive + n * f.tick_resolution ∧
    f'.tick_resolution = f.tick_resolution := by
  induction n with
  | zero =>
    intro f f' h
    simp [Fire.tick_multiple] at h
    simp [← h]
  | succ n ih =>
    intro f f' h
    unfold Fire.tick_multiple at h
    rcases htk : f.tick with ⟨e, g⟩
    rw [htk] at h
    cases e with
    | some err => simp at h
    | none =>
      simp only at h
      obtain ⟨h1, h2⟩ := ih g f' h
      obtain ⟨h3, h4⟩ := aux_tick_ok f g htk
      constructor
      · rw [h1, h3, h4]
        push_cast
        ring
      · rw [h2, h4]

/-- C8: a successful `cancel` returns exactly the craft's ingredients, leaves
the fire in the state `tick_time((recipe_time − time_remaining) / 4)`
produces, and advances `time_alive` by the resolution-quantized uncraft
time; in the spec's half-done example (recipe time 100, 50 remaining,
resolution 1, 50 already elapsed) the fire ends at `time_alive = 63`. -/
theorem cancel_ticks_uncraft_time (c : InProgressCraft) (f f' : Fire)
    (ig : List (ItemId × ℕ)) (h : c.cancel f = (.ok ig, f')) :
    ig = c.ingredients ∧
    f' = (f.tick_time ((c.recipe_time - c.time_remaining) / UNCRAFT_MULTIPLIER)).2 ∧
    f'.time_alive = f.time_alive +
      (ceilToU32 (((c.recipe_time - c.time_remaining) / UNCRAFT_MULTIPLIER) /
        f.tick_resolution) : ℚ) * f.tick_resolution ∧
    (c.recipe_time = 100 → c.time_remaining = 50 → f.tick_resolution = 1 →
      f.time_alive = 50 → f'.time_alive = 63) := by
  unfold InProgressCraft.cancel at h
  rcases htt : f.tick_time c.uncraft_time with ⟨e, g⟩
  rw [htt] at h
  cases e with
  | some err => simp at h
  | none =>
    simp only [Prod.mk.injEq, Except.ok.injEq] at h
    obtain ⟨hig, hgf⟩ := h
    have hmul : f.tick_multiple (ceilToU32 (c.uncraft_time / f.tick_resolution)) =
        (none, g) := htt
    obtain ⟨h1, h2⟩ := aux_tick_multiple_ok _ f g hmul
    have huc : c.uncraft_time = (c.recipe_time - c.time_remaining) / UNCRAFT_MULTIPLIER :=
      rfl
    refine ⟨hig.symm, ?_, ?_, ?_⟩
    · rw [← huc, htt, ← hgf]
    · rw [← huc, ← hgf, h1]
    · intro hr ht hres hta
      rw [← hgf, h1, huc, hr, ht, hres, hta]
      decide


/-- C8 witness: cancelling the half-done small-bundle craft on the
50-time-alive game fire succeeds, returns the three small sticks, and leaves
`time_alive = 63` (50 + ⌈12.5⌉·1). -/
theorem cancel_ticks_uncraft_time_witness :
    (halfCraft.cancel cancelFire).1 = .ok halfCraft.ingredients ∧
    (halfCraft.cancel cancelFire).2.time_alive = 63 := by
  have h := cancel_ticks_uncraft_time halfCraft cancelFire
    (halfCraft.cancel cancelFire).2 [(.SmallStick, 3)] (by decide)
  exact ⟨by decide, h.2.2.2 (by decide) (by decide) (by decide) (by decide)⟩

/-- The one-step temperature difference identity for the relaxation update. -/
theorem aux_relax_diff (T r t : ℚ) : T - relaxStep T r t = (T - t) * (1 - r / 50) := by
  unfold relaxStep
  ring

/-- One relaxation step never increases the distance to the target when the
resolution is at most 50. -/
theorem aux_relax_abs_le (T r t : ℚ) (hr0 : 0 ≤ r) (hr : r ≤ 50) :
    |T - relaxStep T r t| ≤ |T - t| := by
  rw [aux_relax_diff, abs_mul]
  have hc0 : (0 : ℚ) ≤ 1 - r / 50 := by linarith
  have hc1 : 1 - r / 50 ≤ 1 := by linarith
  rw [abs_of_nonneg hc0]
  calc |T - t| * (1 - r / 50) ≤ |T - t| * 1 :=
        mul_le_mul_of_nonneg_left hc1 (abs_nonneg _)
    _ = |T - t| := mul_one _

/-- One relaxation step strictly decreases the distance to the target when
the temperature is off target and the resolution is in (0, 50]. -/
theorem aux_relax_abs_lt (T r t : ℚ) (hr0 : 0 < r) (hr : r ≤ 50) (hne : t ≠ T) :
    |T - relaxStep T r t| < |T - t| := by
  rw [aux_relax_diff, abs_mul]
  have hc0 : (0 : ℚ) ≤ 1 - r / 50 := by linarith
  have hc1 : 1 - r / 50 < 1 := by linarith
  have hpos : 0 < |T - t| := abs_pos.mpr (sub_ne_zero_of_ne (Ne.symm hne))
  rw [abs_of_nonneg hc0]
  calc |T - t| * (1 - r / 50) < |T - t| * 1 := mul_lt_mul_of_pos_left hc1 hpos
    _ = |T - t| := mul_one _

/-- One relaxation step stays between the current temperature and the
target when the resolution is in (0, 50]. -/
theorem aux_relax_between (T r t : ℚ) (hr0 : 0 < r) (hr : r ≤ 50) :
    min t T ≤ relaxStep T r t ∧ relaxStep T r t ≤ max t T := by
  unfold relaxStep
  rcases le_total t T with h | h
  · rw [min_eq_left h, max_eq_right h]
    constructor
    · nlinarith [mul_nonneg (sub_nonneg.mpr h) hr0.le]
    · nlinarith [mul_nonneg (sub_nonneg.mpr h) (sub_nonneg.mpr hr)]
  · rw [min_eq_right h, max_eq_left h]
    constructor
    · nlinarith [mul_nonneg (sub_nonneg.mpr h) (sub_nonneg.mpr hr)]
    · nlinarith [mul_nonneg (sub_nonneg.mpr h) hr0.le]

/-- Every relaxation iterate stays between the starting temperature and the
target. -/
theorem aux_relax_interval (T r t0 : ℚ) (hr0 : 0 < r) (hr : r ≤ 50) :
    ∀ n : ℕ, min t0 T ≤ (relaxStep T r)^[n] t0 ∧ (relaxStep T r)^[n] t0 ≤ max t0 T := by
  intro n
  induction n with
  | zero => simp
  | succ n ih =>
    rw [Function.iterate_succ_apply']
    have hb := aux_relax_between T r ((relaxStep T r)^[n] t0) hr0 hr
    constructor
    · exact le_trans (le_min ih.1 (min_le_right t0 T)) hb.1
    · exact le_trans hb.2 (max_le ih.2 (le_max_right t0 T))

/-- With a nonempty item list and a target that does not depend on the
current temperature, iterating `tick_temperature` only moves the
temperature, along the scalar relaxation recurrence. -/
theorem aux_iterate_relax (f : Fire) (T : ℚ) (hne : f.items ≠ [])
    (hfix : ∀ t : ℚ, Fire.target_temperature { f with temperature := t } = T) :
    ∀ n : ℕ, Fire.tick_temperature^[n] f =
      { f with temperature := (relaxStep T f.tick_resolution)^[n] f.temperature } := by
  intro n
  induction n with
  | zero => rfl
  | succ n ih =>
    rw [Function.iterate_succ_apply', Function.iterate_succ_apply', ih]
    unfold Fire.tick_temperature
    have hne' : ({ f with
        temperature := (relaxStep T f.tick_resolution)^[n] f.temperature } : Fire).items ≠
          [] := hne
    rw [if_pos hne']
    rw [hfix]
    rfl

/-- When fresh fuel does not radiate, the target temperature is independent
of the current temperature. -/
theorem aux_target_temperature_const (f : Fire) (hrad : f.fresh_fuel_radiates = false)
    (t : ℚ) :
    Fire.target_temperature { f with temperature := t } = Fire.target_temperature f := by
  unfold Fire.target_temperature Fire.targetData
  simp [hrad]

/-- C5 (amended): for a fire with items, a fixed target temperature, and a
tick resolution in (0, 50] — the shipped resolution is 1 — repeated
`tick_temperature` calls never increase the distance to the target, strictly
decrease it whenever the temperature is off target, and keep the temperature
between its starting value and the target, never overshooting. (Without the
resolution bound the statement is false; see the counterexample.) -/
theorem tick_temperature_monotone_convergence (f : Fire) (T : ℚ)
    (hne : f.items ≠ [])
    (hfix : ∀ t : ℚ, Fire.target_temperature { f with temperature := t } = T)
    (hr0 : 0 < f.tick_resolution) (hr : f.tick_resolution ≤ 50) :
    ∀ n : ℕ,
      |T - (Fire.tick_temperature^[n + 1] f).temperature| ≤
        |T - (Fire.tick_temperature^[n] f).temperature| ∧
      ((Fire.tick_temperature^[n] f).temperature ≠ T →
        |T - (Fire.tick_temperature^[n + 1] f).temperature| <
          |T - (Fire.tick_temperature^[n] f).temperature|) ∧
      min f.temperature T ≤ (Fire.tick_temperature^[n] f).temperature ∧
      (Fire.tick_temperature^[n] f).temperature ≤ max f.temperature T := by
  intro n
  have hit := aux_iterate_relax f T hne hfix
  have e1 : (Fire.tick_temperature^[n] f).temperature =
      (relaxStep T f.tick_resolution)^[n] f.temperature := by rw [hit n]
  have e2 : (Fire.tick_temperature^[n + 1] f).temperature =
      (relaxStep T f.tick_resolution)^[n + 1] f.temperature := by rw [hit (n + 1)]
  rw [e1, e2, Function.iterate_succ_apply']
  refine ⟨aux_relax_abs_le T _ _ hr0.le hr, fun hoff => aux_relax_abs_lt T _ _ hr0 hr hoff,
    (aux_relax_interval T _ f.temperature hr0 hr n).1,
    (aux_relax_interval T _ f.temperature hr0 hr n).2⟩

/-- C5 counterexample: the claim without a resolution bound is false. At tick
resolution 200 (settable through `with_tick_resolution`), the game-start fire
— nonempty, `fresh_fuel_radiates` off, so its target temperature is a fixed
value independent of the current temperature — starts above its target,
overshoots below it in a single `tick_temperature`, and ends farther from
the target than it began. -/
theorem tick_temperature_overshoot_counterexample :
    overshootFire.items ≠ [] ∧
    overshootFire.fresh_fuel_radiates = false ∧
    overshootFire.target_temperature < overshootFire.temperature ∧
    (overshootFire.tick_temperature).temperature < overshootFire.target_temperature ∧
    overshootFire.temperature - overshootFire.target_temperature <
      overshootFire.target_temperature - (overshootFire.tick_temperature).temperature := by
  decide

/-- C5 witness: the game-start fire (resolution 1, fixed target 2981010/5400)
satisfies the amended convergence bounds on its first tick, strictly. -/
theorem tick_temperature_monotone_convergence_witness :
    |(2981010 / 5400 : ℚ) - (Fire.tick_temperature^[0 + 1] Fire.init).temperature| ≤
      |(2981010 / 5400 : ℚ) - (Fire.tick_temperature^[0] Fire.init).temperature| ∧
    |(2981010 / 5400 : ℚ) - (Fire.tick_temperature^[0 + 1] Fire.init).temperature| <
      |(2981010 / 5400 : ℚ) - (Fire.tick_temperature^[0] Fire.init).temperature| ∧
    min Fire.init.temperature (2981010 / 5400) ≤
      (Fire.tick_temperature^[0] Fire.init).temperature ∧
    (Fire.tick_temperature^[0] Fire.init).temperature ≤
      max Fire.init.temperature (2981010 / 5400) := by
  have h := tick_temperature_monotone_convergence Fire.init (2981010 / 5400)
    (by decide) (fun t => (aux_target_temperature_const Fire.init rfl t).trans (by decide))
    (by decide) (by decide) 0
  exact ⟨h.1, h.2.1 (by decide), h.2.2.1, h.2.2.2⟩

end Ember
